import Mathlib

/-!
Verification development for the ISCC certificate PDF scraper
(`ISCC Scraping/scraper.py`).

The Python program is shallowly embedded as executable Lean definitions:

* pure helpers (`classify_pdf_type`, the row/link extraction logic of
  `extract_certificate_data`, the `%PDF` magic check of `download_pdf`)
  are translated directly as Lean functions;
* external library calls (BeautifulSoup parsing, `urllib.parse.urljoin`,
  `hashlib.md5`, the HTTP session, `boto3` uploads) are modelled as
  oracle parameters collected in an `Env` record: the embedding
  quantifies over their behaviour;
* the `process_certificates` driver is embedded as a fold over the
  flattened `(certificate, pdf_link)` sequence, which is exactly the
  visit order of the Python nested loops, with the early `return stats`
  of the cap check modelled as stopping the fold;
* Python truthiness is embedded explicitly: `if not html_content`
  fires on `None` and on the empty string, `if not pdf_content` on
  `None` and on empty bytes, and `if max_pdfs` is false for `None`
  and for `0`;
* `save_progress` is embedded as the sequence of file-system
  operations it performs (`open(filename, "w")` truncates the target,
  then the JSON serialization is written), together with a small
  file-system semantics used to examine crash points.

An upload-event trace is returned alongside the run state as ghost
instrumentation: it records exactly the calls the orchestrator makes to
the uploader, so properties of the form "such content never reaches the
uploader" can be stated.
-/

namespace ISCCScraper

/-- The scraper's fixed base URL (`self.base_url`). -/
def base_url : String := "https://www.iscc-system.org"

/-! ### String helpers

`strStarts pat s` decides whether the character list `s` begins with
`pat`; `strOccurs pat s` decides whether `pat` occurs contiguously in
`s`.  These model Python's `in` substring test and `str.endswith`
without relying on any external behaviour. -/

/-- `strStarts pat s = true` iff `pat` is an initial segment of `s`. -/
def strStarts : List Char → List Char → Bool
  | [], _ => true
  | _ :: _, [] => false
  | a :: as, b :: bs => a == b && strStarts as bs

/-- `strOccurs pat s = true` iff `pat` occurs contiguously in `s`
(Python's `pat in s`). -/
def strOccurs (pat : List Char) : List Char → Bool
  | [] => strStarts pat []
  | c :: rest => strStarts pat (c :: rest) || strOccurs pat rest

/-- Substring test on strings: Python `pat in s`. -/
def strContains (s pat : String) : Bool :=
  strOccurs pat.toList s.toList

/-- ASCII lowering of one character; on the ASCII link texts and hrefs
involved this is exactly Python's `str.lower`. -/
def lowerChar (c : Char) : Char :=
  if 65 ≤ c.toNat ∧ c.toNat ≤ 90 then Char.ofNat (c.toNat + 32) else c

/-- Python `str.lower` (ASCII range). -/
def pyLower (s : String) : String := ⟨s.data.map lowerChar⟩

/-- Python `str.endswith`. -/
def strEnds (s suffix : String) : Bool :=
  strStarts suffix.toList.reverse s.toList.reverse

/-- Python `str.startswith`. -/
def strBegins (s pre : String) : Bool :=
  strStarts pre.toList s.toList

/-- `bytesStart pat content = true` iff the byte list `content` begins
with `pat`; models Python's `bytes.startswith`. -/
def bytesStart : List Nat → List Nat → Bool
  | [], _ => true
  | _ :: _, [] => false
  | a :: as, b :: bs => a == b && bytesStart as bs

/-- The PDF magic signature `b"%PDF"` as bytes. -/
def pdfMagic : List Nat := [37, 80, 68, 70]

/-! ### PDF type classification (`classify_pdf_type`) -/

/-- The three classification strings returned by `classify_pdf_type`
(`'audit_report'`, `'certificate'`, `'unknown'`). -/
inductive PdfType where
  | audit_report : PdfType
  | certificate : PdfType
  | unknown : PdfType
deriving DecidableEq, Repr

/-- `classify_pdf_type` from the source: lowercase the link text, then
test `'audit'`/`'summary'` first, then `'certificate'`, else unknown. -/
def classify_pdf_type (link_text : String) : PdfType :=
  let t := pyLower link_text
  if strContains t "audit" || strContains t "summary" then
    PdfType.audit_report
  else if strContains t "certificate" then
    PdfType.certificate
  else
    PdfType.unknown

/-! ### Parsed-HTML model

`extract_certificate_data` works on the BeautifulSoup parse of the
page.  The parse result is modelled structurally: a document is a list
of tables (in document order, so `soup.find('table')` is the head), a
table is a list of `tr` rows, a row is a list of `td`/`th` cells, and a
cell carries its stripped text plus its href-bearing anchors (the
result of `find_all('a', href=True)`), each with target and stripped
text.  The parser itself (`BeautifulSoup(html, 'html.parser')`) is an
external total function and enters the embedding as an oracle of type
`String → HtmlDoc`. -/

/-- An anchor element with an `href` attribute: target and display text. -/
structure LinkTag where
  href : String
  text : String
deriving DecidableEq, Repr

/-- A table cell: stripped text content and its href-bearing anchors. -/
structure Cell where
  text : String
  links : List LinkTag
deriving DecidableEq, Repr

/-- A table row: its `td`/`th` cells. -/
structure Row where
  cells : List Cell
deriving DecidableEq, Repr

/-- A table: its `tr` rows. -/
structure HtmlTable where
  rows : List Row
deriving DecidableEq, Repr

/-- A parsed document: its tables in document order. -/
structure HtmlDoc where
  tables : List HtmlTable
deriving DecidableEq, Repr

/-- A classified PDF link, as built in `extract_certificate_data`
(the dict `{'url': ..., 'text': ..., 'type': ...}`). -/
structure PdfInfo where
  url : String
  text : String
  ptype : PdfType
deriving DecidableEq, Repr

/-- A certificate record, as built in `extract_certificate_data`
(the dict `cert_data`). -/
structure CertData where
  certificate_number : String
  company_name : String
  country : String
  validity_period : String
  certification_body : String
  pdf_links : List PdfInfo
deriving DecidableEq, Repr

/-- Default cell used for total positional access; never reached when
the row has at least 5 cells. -/
def defaultCell : Cell := ⟨"", []⟩

/-- The per-anchor body of the link scan in `extract_certificate_data`:
keep anchors whose target ends in `.pdf` (case-insensitive), resolve
relative targets against `base_url` via the `urljoin` oracle `uj`, and
classify by display text. -/
def mkPdfLink (uj : String → String → String) (lk : LinkTag) : Option PdfInfo :=
  if strEnds (pyLower lk.href) ".pdf" then
    let href :=
      if strBegins lk.href "/" then uj base_url lk.href
      else if !(strBegins lk.href "http") then uj base_url lk.href
      else lk.href
    some ⟨href, lk.text, classify_pdf_type lk.text⟩
  else
    none

/-- The per-row body of `extract_certificate_data`: rows with fewer
than 5 cells are skipped (`continue`), the first five cells fill the
scalar fields, every cell is scanned for `.pdf` anchors, and the row is
kept only if it yielded at least one link. -/
def extractRow (uj : String → String → String) (row : Row) : Option CertData :=
  if row.cells.length < 5 then none
  else
    let links := row.cells.flatMap (fun cell => cell.links.filterMap (mkPdfLink uj))
    if links.isEmpty then none
    else
      some
        { certificate_number := (row.cells.getD 0 defaultCell).text
          company_name := (row.cells.getD 1 defaultCell).text
          country := (row.cells.getD 2 defaultCell).text
          validity_period := (row.cells.getD 3 defaultCell).text
          certification_body := (row.cells.getD 4 defaultCell).text
          pdf_links := links }

/-- `extract_certificate_data` from the source, over the parse oracle
`parse`: locate the first table (warn and return `[]` when there is
none), drop the header row, and process the remaining rows. -/
def extract_certificate_data (parse : String → HtmlDoc)
    (uj : String → String → String) (html_content : String) : List CertData :=
  match (parse html_content).tables.head? with
  | none => []
  | some table => (table.rows.drop 1).filterMap (extractRow uj)

/-! ### Document fetcher (`download_pdf`)

`self.session.get` and `raise_for_status` are external: their combined
outcome enters as an `Except Unit (List Nat)` (error = request
exception or non-success status, ok = response body bytes).
`download_pdf` then applies the `%PDF` magic check from the source. -/

/-- `download_pdf` from the source over the HTTP outcome: `none` on a
request error, `none` when the body does not begin with `%PDF`,
otherwise the body. -/
def download_pdf (resp : Except Unit (List Nat)) : Option (List Nat) :=
  match resp with
  | Except.error _ => none
  | Except.ok content =>
      if bytesStart pdfMagic content then some content else none

/-! ### Orchestrator (`process_certificates`) -/

/-- The `stats` dictionary of `process_certificates`. -/
structure Stats where
  certificates_found : Nat
  pdfs_found : Nat
  pdfs_downloaded : Nat
  pdfs_uploaded : Nat
  errors : Nat
deriving DecidableEq, Repr

/-- The all-zero initial statistics. -/
def zeroStats : Stats := ⟨0, 0, 0, 0, 0⟩

/-- The mutable state the loop threads: the statistics, the
`self.processed_pdfs` identity set (a duplicate-free list), and the
local `pdf_count` counter. -/
structure RunState where
  stats : Stats
  processed : List String
  pdf_count : Nat
deriving DecidableEq, Repr

/-- Ghost record of one call to the uploader: the link URL, its MD5
identity, the uploaded bytes, and whether `upload_to_s3` succeeded. -/
structure UploadEvent where
  url : String
  hash : String
  content : List Nat
  ok : Bool
deriving DecidableEq, Repr

/-- The external collaborators of one run, as oracles:
`get_page_content` (the configured retrieval backend, applied to the
fixed certificates URL), the BeautifulSoup parse, `urljoin`,
`hashlib.md5(...).hexdigest()`, `download_pdf` applied to the link URL,
and `upload_to_s3` (with `generate_s3_key` and the metadata folded
into the oracle, which sees the certificate, the link and the bytes). -/
structure Env where
  get_page_content : Option String
  parse : String → HtmlDoc
  urljoin : String → String → String
  md5hex : String → String
  download : String → Option (List Nat)
  upload : CertData → PdfInfo → List Nat → Bool

/-- Python set insertion: `self.processed_pdfs.add(x)`. -/
def setInsert (xs : List String) (x : String) : List String :=
  if x ∈ xs then xs else x :: xs

/-- The cap test `if max_pdfs and pdf_count >= max_pdfs`, with Python
truthiness: `None` and `0` are both falsy, so the body can fire only
for a nonzero cap. -/
def capGuard (max_pdfs : Option Nat) (pdf_count : Nat) : Bool :=
  match max_pdfs with
  | none => false
  | some m => !(m == 0) && decide (m ≤ pdf_count)

/-- One iteration of the inner loop body after the cap check: count the
link, test the identity set, download (with `if not pdf_content`
covering both `None` and empty bytes), upload, and record the identity
exactly on upload success.  Returns the updated state and the ghost
upload event, when the uploader was called. -/
def processOne (env : Env) (s : RunState) (cert : CertData) (pdf : PdfInfo) :
    RunState × Option UploadEvent :=
  let s1 : RunState :=
    { s with stats := { s.stats with pdfs_found := s.stats.pdfs_found + 1 } }
  let url_hash := env.md5hex pdf.url
  if url_hash ∈ s1.processed then (s1, none)
  else
    match env.download pdf.url with
    | none =>
        ({ s1 with stats := { s1.stats with errors := s1.stats.errors + 1 } }, none)
    | some c =>
        if c.isEmpty then
          ({ s1 with stats := { s1.stats with errors := s1.stats.errors + 1 } }, none)
        else
          let s2 : RunState :=
            { s1 with stats :=
                { s1.stats with pdfs_downloaded := s1.stats.pdfs_downloaded + 1 } }
          let ok := env.upload cert pdf c
          let s3 : RunState :=
            if ok then
              { s2 with
                stats := { s2.stats with pdfs_uploaded := s2.stats.pdfs_uploaded + 1 }
                processed := setInsert s2.processed url_hash }
            else
              { s2 with stats := { s2.stats with errors := s2.stats.errors + 1 } }
          ({ s3 with pdf_count := s3.pdf_count + 1 }, some ⟨pdf.url, url_hash, c, ok⟩)

/-- The nested `for cert_data ... for pdf_info ...` loops over the
flattened `(certificate, link)` sequence.  The cap check runs before
any per-link work; when it fires the Python `return stats` ends both
loops, leaving the state untouched.  The second component is the ghost
trace of uploader calls. -/
def runLinks (env : Env) (max_pdfs : Option Nat) :
    RunState → List (CertData × PdfInfo) → RunState × List UploadEvent
  | s, [] => (s, [])
  | s, (cert, pdf) :: rest =>
      if capGuard max_pdfs s.pdf_count then (s, [])
      else
        let sp := processOne env s cert pdf
        let r := runLinks env max_pdfs sp.1 rest
        (r.1, sp.2.toList ++ r.2)

/-- The flattened visit order of the nested loops. -/
def linkPairs (certificates : List CertData) : List (CertData × PdfInfo) :=
  certificates.flatMap (fun cd => cd.pdf_links.map (fun p => (cd, p)))

/-- `process_certificates` from the source: fetch the listing page
(`if not html_content` fires on `None` and on the empty string and
returns the zero statistics with the identity set untouched), extract
the records, set `certificates_found`, and iterate the links. -/
def process_certificates (env : Env) (max_pdfs : Option Nat)
    (initial : List String) : RunState × List UploadEvent :=
  let s0 : RunState := ⟨zeroStats, initial, 0⟩
  match env.get_page_content with
  | none => (s0, [])
  | some html =>
      if html = "" then (s0, [])
      else
        let certificates := extract_certificate_data env.parse env.urljoin html
        let s1 : RunState :=
          { s0 with stats := { s0.stats with certificates_found := certificates.length } }
        runLinks env max_pdfs s1 (linkPairs certificates)

/-! ### Persisted save (`save_progress`)

`save_progress` performs `open(filename, 'w')` — which truncates the
target in place — and then `json.dump(list(self.processed_pdfs), f)`.
It is embedded as the sequence of file-system operations it issues,
with a file-system semantics (`applyOps`) mapping paths to contents so
crash points (operation-sequence cut-offs) can be examined. -/

/-- A file-system operation: truncate-open a path for writing, append
data to an open path, or rename. -/
inductive FsOp where
  | openTrunc : String → FsOp
  | writeStr : String → String → FsOp
  | rename : String → String → FsOp
deriving DecidableEq, Repr

/-- `json.dump` of a list of strings: a JSON array with the default
`', '` separator (the stored MD5 hex digests need no escaping). -/
def jsonDumpList (xs : List String) : String :=
  "[" ++ String.intercalate ", " (xs.map (fun s => "\"" ++ s ++ "\"")) ++ "]"

/-- The operations `save_progress` issues: truncate the target, then
write the serialized set into it.  No temporary file and no rename. -/
def save_progress_ops (processed : List String) (filename : String) : List FsOp :=
  [FsOp.openTrunc filename, FsOp.writeStr filename (jsonDumpList processed)]

/-- Effect of one operation on a file system (`none` = file absent). -/
def applyOp (fs : String → Option String) : FsOp → String → Option String
  | FsOp.openTrunc p, q => if q = p then some "" else fs q
  | FsOp.writeStr p d, q => if q = p then some ((fs p).getD "" ++ d) else fs q
  | FsOp.rename src dst, q =>
      if q = dst then fs src else if q = src then none else fs q

/-- Effect of an operation sequence on a file system. -/
def applyOps (fs : String → Option String) (ops : List FsOp) : String → Option String :=
  ops.foldl applyOp fs

/-- Modelled from the spec: "writing new state to a temporary location
then replacing the prior file" — no operation opens or writes the
target directly, and some rename lands on the target.  Used to compare
`save_progress_ops` against the claimed write-then-rename shape. -/
def writesViaTempThenRename (ops : List FsOp) (target : String) : Bool :=
  ops.all (fun op =>
    match op with
    | FsOp.openTrunc p => p != target
    | FsOp.writeStr p _ => p != target
    | FsOp.rename _ _ => true)
  && ops.any (fun op =>
    match op with
    | FsOp.rename _ dst => dst == target
    | _ => false)

/-- MD5 identities of the successful events of an upload trace. -/
def succHashes (evs : List UploadEvent) : List String :=
  (evs.filter (fun e => e.ok)).map (fun e => e.hash)

/-! ### Concrete fixtures

Small concrete environments and inputs used to instantiate the
theorems below on closed runs. -/

/-- Concrete `urljoin` oracle: simple concatenation. -/
def ujConcat : String → String → String := fun b r => b ++ r

/-- Parse oracle for a document with no tables. -/
def emptyParse : String → HtmlDoc := fun _ => HtmlDoc.mk []

/-- A concrete certificate record with no links. -/
def certX : CertData := ⟨"EU-ISCC-001", "Acme", "DE", "2025", "CB", []⟩

/-- A concrete link with the given URL. -/
def mkPdf (u : String) : PdfInfo := ⟨u, "doc", PdfType.unknown⟩

/-- A data row with 5 cells whose first cell holds two `.pdf` anchors. -/
def rowC3 : Row :=
  ⟨[⟨"EU-ISCC-001", [⟨"http://x/a.pdf", "Audit Report"⟩, ⟨"http://x/b.pdf", "Certificate"⟩]⟩,
    ⟨"Acme", []⟩, ⟨"DE", []⟩, ⟨"2025", []⟩, ⟨"CB", []⟩]⟩

/-- A parsed page: one table, a header row, then `rowC3`. -/
def docC3 : HtmlDoc := ⟨[⟨[⟨[]⟩, rowC3]⟩]⟩

/-- The record the extractor produces from `rowC3`. -/
def certC3 : CertData :=
  ⟨"EU-ISCC-001", "Acme", "DE", "2025", "CB",
   [⟨"http://x/a.pdf", "Audit Report", PdfType.audit_report⟩,
    ⟨"http://x/b.pdf", "Certificate", PdfType.certificate⟩]⟩

/-- Environment whose page is `docC3` and whose downloads and uploads
all succeed. -/
def envC3 : Env :=
  { get_page_content := some "page"
    parse := fun _ => docC3
    urljoin := ujConcat
    md5hex := fun u => u
    download := fun _ => some pdfMagic
    upload := fun _ _ _ => true }

/-- Environment whose content retriever fails. -/
def envAbort : Env :=
  { get_page_content := none
    parse := emptyParse
    urljoin := ujConcat
    md5hex := fun u => u
    download := fun _ => none
    upload := fun _ _ _ => true }

/-- HTTP oracle returning a `%PDF1`-prefixed body for every URL. -/
def httpC8 : String → Except Unit (List Nat) := fun _ => Except.ok [37, 80, 68, 70, 49]

/-- Environment whose download oracle is literally `download_pdf`
composed with `httpC8`. -/
def envC8 : Env :=
  { get_page_content := none
    parse := emptyParse
    urljoin := ujConcat
    md5hex := fun u => u
    download := fun url => download_pdf (httpC8 url)
    upload := fun _ _ _ => true }

/-- Environment where only `u3` downloads successfully. -/
def envC10 : Env :=
  { get_page_content := none
    parse := emptyParse
    urljoin := ujConcat
    md5hex := fun u => "h" ++ u
    download := fun u => if u = "u3" then some pdfMagic else none
    upload := fun _ _ _ => true }

/-- Start state where `u1`'s identity is already recorded. -/
def s0C10 : RunState := ⟨zeroStats, ["hu1"], 0⟩

/-- Four links: one dedup-skipped, one failing download, one succeeding,
one reached only after the cap has been hit. -/
def pairsC10 : List (CertData × PdfInfo) :=
  [(certX, mkPdf "u1"), (certX, mkPdf "u2"), (certX, mkPdf "u3"), (certX, mkPdf "u4")]

/-- The default persisted-state filename (`processed_pdfs.json`). -/
def progressFile : String := "processed_pdfs.json"

/-- A file system whose progress file holds a previously saved set. -/
def fsOldC1 : String → Option String :=
  fun q => if q = progressFile then some (jsonDumpList ["old"]) else none

/-- The empty file system. -/
def fsEmpty : String → Option String := fun _ => none

/-- The all-zero, empty-set start state. -/
def s0Empty : RunState := ⟨zeroStats, [], 0⟩

/-- A mid-run state: one link processed, cap of one reached. -/
def sMid : RunState := ⟨⟨1, 1, 1, 1, 0⟩, ["http://x/a.pdf"], 1⟩

/-! ### Helper lemmas -/

/-- Membership in Python set insertion. -/
lemma mem_setInsert {xs : List String} {x y : String} :
    y ∈ setInsert xs x ↔ y = x ∨ y ∈ xs := by
  unfold setInsert
  split
  · rename_i h
    constructor
    · exact fun hy => Or.inr hy
    · rintro (rfl | hy)
      · exact h
      · exact hy
  · simp [List.mem_cons]

/-- Branch equation: the link's identity is already recorded, so only
`pdfs_found` moves. -/
lemma processOne_skip {env : Env} {s : RunState} {cert : CertData} {pdf : PdfInfo}
    (h : env.md5hex pdf.url ∈ s.processed) :
    processOne env s cert pdf =
      ({ s with stats := { s.stats with pdfs_found := s.stats.pdfs_found + 1 } }, none) := by
  simp [processOne, h]

/-- Branch equation: the download returns `None`. -/
lemma processOne_dlfail {env : Env} {s : RunState} {cert : CertData} {pdf : PdfInfo}
    (h : env.md5hex pdf.url ∉ s.processed) (hdl : env.download pdf.url = none) :
    processOne env s cert pdf =
      (⟨⟨s.stats.certificates_found, s.stats.pdfs_found + 1, s.stats.pdfs_downloaded,
          s.stats.pdfs_uploaded, s.stats.errors + 1⟩, s.processed, s.pdf_count⟩, none) := by
  simp [processOne, h, hdl]

/-- Branch equation: the download returns falsy empty bytes. -/
lemma processOne_dlempty {env : Env} {s : RunState} {cert : CertData} {pdf : PdfInfo}
    (h : env.md5hex pdf.url ∉ s.processed) (hdl : env.download pdf.url = some []) :
    processOne env s cert pdf =
      (⟨⟨s.stats.certificates_found, s.stats.pdfs_found + 1, s.stats.pdfs_downloaded,
          s.stats.pdfs_uploaded, s.stats.errors + 1⟩, s.processed, s.pdf_count⟩, none) := by
  simp [processOne, h, hdl]

/-- Branch equation: download and upload both succeed, so the identity
is inserted and `pdfs_uploaded` and `pdf_count` move. -/
lemma processOne_success {env : Env} {s : RunState} {cert : CertData} {pdf : PdfInfo}
    {c : List Nat} (h : env.md5hex pdf.url ∉ s.processed)
    (hdl : env.download pdf.url = some c) (hc : c ≠ [])
    (hup : env.upload cert pdf c = true) :
    processOne env s cert pdf =
      (⟨⟨s.stats.certificates_found, s.stats.pdfs_found + 1,
          s.stats.pdfs_downloaded + 1, s.stats.pdfs_uploaded + 1, s.stats.errors⟩,
        setInsert s.processed (env.md5hex pdf.url), s.pdf_count + 1⟩,
       some ⟨pdf.url, env.md5hex pdf.url, c, true⟩) := by
  simp [processOne, h, hdl, hc, hup]

/-- Branch equation: download succeeds but upload fails, so the
identity is not inserted, `errors` moves, `pdf_count` still moves. -/
lemma processOne_upfail {env : Env} {s : RunState} {cert : CertData} {pdf : PdfInfo}
    {c : List Nat} (h : env.md5hex pdf.url ∉ s.processed)
    (hdl : env.download pdf.url = some c) (hc : c ≠ [])
    (hup : env.upload cert pdf c = false) :
    processOne env s cert pdf =
      (⟨⟨s.stats.certificates_found, s.stats.pdfs_found + 1,
          s.stats.pdfs_downloaded + 1, s.stats.pdfs_uploaded, s.stats.errors + 1⟩,
        s.processed, s.pdf_count + 1⟩,
       some ⟨pdf.url, env.md5hex pdf.url, c, false⟩) := by
  simp [processOne, h, hdl, hc, hup]

/-- Loop equation on the empty pair list. -/
lemma runLinks_nil {env : Env} {m : Option Nat} {s : RunState} :
    runLinks env m s [] = (s, []) := rfl

/-- Loop equation when the cap fires: both loops end at once via the
Python `return stats`, leaving the state untouched. -/
lemma runLinks_cons_cap {env : Env} {m : Option Nat} {s : RunState}
    {c : CertData} {p : PdfInfo} {rest : List (CertData × PdfInfo)}
    (h : capGuard m s.pdf_count = true) :
    runLinks env m s ((c, p) :: rest) = (s, []) := by
  simp [runLinks, h]

/-- Loop equation when the cap does not fire. -/
lemma runLinks_cons_go {env : Env} {m : Option Nat} {s : RunState}
    {c : CertData} {p : PdfInfo} {rest : List (CertData × PdfInfo)}
    (h : capGuard m s.pdf_count = false) :
    runLinks env m s ((c, p) :: rest) =
      ((runLinks env m (processOne env s c p).1 rest).1,
       (processOne env s c p).2.toList ++ (runLinks env m (processOne env s c p).1 rest).2) := by
  simp [runLinks, h]

/-- One step changes the identity set exactly by the hashes of the
step's successful upload events. -/
lemma processOne_mem {env : Env} {s : RunState} {cert : CertData} {pdf : PdfInfo}
    (x : String) :
    x ∈ (processOne env s cert pdf).1.processed ↔
      x ∈ s.processed ∨ x ∈ succHashes (processOne env s cert pdf).2.toList := by
  by_cases hskip : env.md5hex pdf.url ∈ s.processed
  · simp [processOne_skip hskip, succHashes]
  · rcases hdl : env.download pdf.url with _ | c
    · simp [processOne_dlfail hskip hdl, succHashes]
    · by_cases hc : c = []
      · subst hc
        simp [processOne_dlempty hskip hdl, succHashes]
      · cases hup : env.upload cert pdf c
        · simp [processOne_upfail hskip hdl hc hup, succHashes]
        · simp [processOne_success hskip hdl hc hup, succHashes, mem_setInsert, or_comm]

/-- One step increments `pdfs_uploaded` exactly by the number of the
step's successful upload events. -/
lemma processOne_uploaded {env : Env} {s : RunState} {cert : CertData} {pdf : PdfInfo} :
    (processOne env s cert pdf).1.stats.pdfs_uploaded =
      s.stats.pdfs_uploaded + (succHashes (processOne env s cert pdf).2.toList).length := by
  by_cases hskip : env.md5hex pdf.url ∈ s.processed
  · simp [processOne_skip hskip, succHashes]
  · rcases hdl : env.download pdf.url with _ | c
    · simp [processOne_dlfail hskip hdl, succHashes]
    · by_cases hc : c = []
      · subst hc
        simp [processOne_dlempty hskip hdl, succHashes]
      · cases hup : env.upload cert pdf c
        · simp [processOne_upfail hskip hdl hc hup, succHashes]
        · simp [processOne_success hskip hdl hc hup, succHashes]

/-- `succHashes` distributes over append. -/
lemma succHashes_append (a b : List UploadEvent) :
    succHashes (a ++ b) = succHashes a ++ succHashes b := by
  simp [succHashes, List.filter_append]

/-- Loop invariant: from any start state, the final identity set is the
start set plus exactly the hashes of the successful upload events. -/
lemma runLinks_mem (env : Env) (m : Option Nat) :
    ∀ (pairs : List (CertData × PdfInfo)) (s : RunState) (x : String),
      x ∈ (runLinks env m s pairs).1.processed ↔
        x ∈ s.processed ∨ x ∈ succHashes (runLinks env m s pairs).2 := by
  intro pairs
  induction pairs with
  | nil => intro s x; simp [runLinks_nil, succHashes]
  | cons cp rest ih =>
    intro s x
    rcases cp with ⟨c, p⟩
    cases hcap : capGuard m s.pdf_count
    · rw [runLinks_cons_go hcap]
      simp only []
      rw [succHashes_append]
      constructor
      · intro hx
        rcases (ih (processOne env s c p).1 x).mp hx with h1 | h2
        · rcases (processOne_mem x).mp h1 with ha | hb
          · exact Or.inl ha
          · exact Or.inr (List.mem_append.mpr (Or.inl hb))
        · exact Or.inr (List.mem_append.mpr (Or.inr h2))
      · intro hx
        rcases hx with ha | hb
        · exact (ih _ x).mpr (Or.inl ((processOne_mem x).mpr (Or.inl ha)))
        · rcases List.mem_append.mp hb with h1 | h2
          · exact (ih _ x).mpr (Or.inl ((processOne_mem x).mpr (Or.inr h1)))
          · exact (ih _ x).mpr (Or.inr h2)
    · rw [runLinks_cons_cap hcap]
      simp [succHashes]

/-- Loop invariant: `pdfs_uploaded` grows by exactly the number of
successful upload events. -/
lemma runLinks_uploaded (env : Env) (m : Option Nat) :
    ∀ (pairs : List (CertData × PdfInfo)) (s : RunState),
      (runLinks env m s pairs).1.stats.pdfs_uploaded =
        s.stats.pdfs_uploaded + (succHashes (runLinks env m s pairs).2).length := by
  intro pairs
  induction pairs with
  | nil => intro s; simp [runLinks_nil, succHashes]
  | cons cp rest ih =>
    intro s
    rcases cp with ⟨c, p⟩
    cases hcap : capGuard m s.pdf_count
    · rw [runLinks_cons_go hcap]
      simp only []
      rw [succHashes_append, List.length_append, ih, processOne_uploaded]
      omega
    · rw [runLinks_cons_cap hcap]
      simp [succHashes]

/-- Whatever `download_pdf` returns begins with the PDF magic bytes. -/
lemma download_pdf_magic {r : Except Unit (List Nat)} {c : List Nat}
    (h : download_pdf r = some c) : bytesStart pdfMagic c = true := by
  rcases r with _ | body
  · simp [download_pdf] at h
  · unfold download_pdf at h
    by_cases hm : bytesStart pdfMagic body = true
    · simp [hm] at h
      subst h
      exact hm
    · simp [Bool.not_eq_true] at hm
      simp [hm] at h

/-- Every upload event of one step carries exactly the bytes the
download oracle returned for the event's URL. -/
lemma processOne_trace {env : Env} {s : RunState} {cert : CertData} {pdf : PdfInfo} :
    ∀ e ∈ (processOne env s cert pdf).2.toList, env.download e.url = some e.content := by
  intro e he
  by_cases hskip : env.md5hex pdf.url ∈ s.processed
  · simp [processOne_skip hskip] at he
  · rcases hdl : env.download pdf.url with _ | c
    · simp [processOne_dlfail hskip hdl] at he
    · by_cases hc : c = []
      · subst hc
        simp [processOne_dlempty hskip hdl] at he
      · cases hup : env.upload cert pdf c
        · rw [processOne_upfail hskip hdl hc hup] at he
          simp at he
          subst he
          exact hdl
        · rw [processOne_success hskip hdl hc hup] at he
          simp at he
          subst he
          exact hdl

/-- Every upload event of a run carries exactly the bytes the download
oracle returned for the event's URL. -/
lemma runLinks_trace (env : Env) (m : Option Nat) :
    ∀ (pairs : List (CertData × PdfInfo)) (s : RunState),
      ∀ e ∈ (runLinks env m s pairs).2, env.download e.url = some e.content := by
  intro pairs
  induction pairs with
  | nil => intro s e he; simp [runLinks_nil] at he
  | cons cp rest ih =>
    intro s e he
    rcases cp with ⟨c, p⟩
    cases hcap : capGuard m s.pdf_count
    · rw [runLinks_cons_go hcap] at he
      simp only [] at he
      rcases List.mem_append.mp he with h1 | h2
      · exact processOne_trace e h1
      · exact ih _ e h2
    · rw [runLinks_cons_cap hcap] at he
      simp at he

/-- A zero cap and an absent cap give the same loop. -/
lemma runLinks_some_zero (env : Env) :
    ∀ (pairs : List (CertData × PdfInfo)) (s : RunState),
      runLinks env (some 0) s pairs = runLinks env none s pairs := by
  intro pairs
  induction pairs with
  | nil => intro s; rfl
  | cons cp rest ih =>
    intro s
    rcases cp with ⟨c, p⟩
    rw [runLinks_cons_go (by rfl : capGuard (some 0) s.pdf_count = false),
        runLinks_cons_go (by rfl : capGuard none s.pdf_count = false), ih]

/-- Running the whole save leaves the full serialization in the target. -/
lemma save_writes (xs : List String) (fn : String) (fs : String → Option String) :
    applyOps fs (save_progress_ops xs fn) fn = some (jsonDumpList xs) := by
  simp [applyOps, save_progress_ops, applyOp]

/-- A crash after the truncate-open leaves the target empty. -/
lemma save_crash (xs : List String) (fn : String) (fs : String → Option String) :
    applyOps fs ((save_progress_ops xs fn).take 1) fn = some "" := by
  simp [applyOps, save_progress_ops, applyOp]

/-! ### Claim theorems -/

/-- Claim C1, counterexample: `save_progress` does not write to a
temporary location and rename — no operation of `save_progress_ops` is
a rename onto the target, and the target is opened and written
directly.  Moreover a crash right after the truncating open (cutting
the operation sequence after its first element) leaves the target
empty, destroying the previously saved file, contrary to the claim
that a crash mid-save leaves it intact. -/
theorem c1_counterexample :
    writesViaTempThenRename (save_progress_ops ["a"] progressFile) progressFile = false ∧
    applyOps fsOldC1 ((save_progress_ops ["a"] progressFile).take 1) progressFile = some "" ∧
    fsOldC1 progressFile = some (jsonDumpList ["old"]) ∧
    ¬ applyOps fsOldC1 ((save_progress_ops ["a"] progressFile).take 1) progressFile =
        fsOldC1 progressFile := by
  decide

/-- Claim C1 as amended: `save_progress` serializes the full set and
overwrites the target, but it does so in place — a truncating open of
the target followed by a direct write, with no temporary file and no
rename — so while a completed save leaves the full serialization in
the target, a crash between the truncation and the write leaves the
target empty rather than holding the previously saved state. -/
theorem c1_save_overwrites_in_place :
    ∀ (xs : List String) (fn : String) (fs : String → Option String),
      save_progress_ops xs fn = [FsOp.openTrunc fn, FsOp.writeStr fn (jsonDumpList xs)] ∧
      writesViaTempThenRename (save_progress_ops xs fn) fn = false ∧
      applyOps fs (save_progress_ops xs fn) fn = some (jsonDumpList xs) ∧
      applyOps fs ((save_progress_ops xs fn).take 1) fn = some "" := by
  intro xs fn fs
  refine ⟨rfl, ?_, save_writes xs fn fs, save_crash xs fn fs⟩
  simp [writesViaTempThenRename, save_progress_ops]

/-- Claim C2: a link's identity is inserted exactly when its upload
succeeds.  Per step: with the dedup check passed and a truthy download,
upload success inserts the identity and increments `pdfs_uploaded`
leaving `errors` unchanged, while upload failure leaves the identity
set and `pdfs_uploaded` unchanged and increments `errors`.  Globally,
from any state (so in particular at any interruption point) the
identity set after the loop is the starting set plus exactly the
hashes of the successful uploads, whose number is exactly the
`pdfs_uploaded` increment; for a full run the persisted set is the
loaded set plus exactly those `pdfs_uploaded` identities. -/
theorem c2_identity_tracks_upload_success :
    (∀ (env : Env) (s : RunState) (cert : CertData) (pdf : PdfInfo) (c : List Nat),
      env.md5hex pdf.url ∉ s.processed → env.download pdf.url = some c → c ≠ [] →
      ((env.upload cert pdf c = true →
          (processOne env s cert pdf).1.processed = setInsert s.processed (env.md5hex pdf.url) ∧
          (processOne env s cert pdf).1.stats.pdfs_uploaded = s.stats.pdfs_uploaded + 1 ∧
          (processOne env s cert pdf).1.stats.errors = s.stats.errors) ∧
        (env.upload cert pdf c = false →
          (processOne env s cert pdf).1.processed = s.processed ∧
          (processOne env s cert pdf).1.stats.pdfs_uploaded = s.stats.pdfs_uploaded ∧
          (processOne env s cert pdf).1.stats.errors = s.stats.errors + 1))) ∧
    (∀ (env : Env) (m : Option Nat) (s : RunState) (pairs : List (CertData × PdfInfo)),
      (∀ x, x ∈ (runLinks env m s pairs).1.processed ↔
        x ∈ s.processed ∨ x ∈ succHashes (runLinks env m s pairs).2) ∧
      (runLinks env m s pairs).1.stats.pdfs_uploaded =
        s.stats.pdfs_uploaded + (succHashes (runLinks env m s pairs).2).length) ∧
    (∀ (env : Env) (m : Option Nat) (p0 : List String),
      (∀ x, x ∈ (process_certificates env m p0).1.processed ↔
        x ∈ p0 ∨ x ∈ succHashes (process_certificates env m p0).2) ∧
      (process_certificates env m p0).1.stats.pdfs_uploaded =
        (succHashes (process_certificates env m p0).2).length) := by
  refine ⟨?_, ?_, ?_⟩
  · intro env s cert pdf c hskip hdl hc
    constructor
    · intro hup
      simp [processOne_success hskip hdl hc hup]
    · intro hup
      simp [processOne_upfail hskip hdl hc hup]
  · intro env m s pairs
    exact ⟨runLinks_mem env m pairs s, runLinks_uploaded env m pairs s⟩
  · intro env m p0
    unfold process_certificates
    rcases h : env.get_page_content with _ | html
    · simp [succHashes, zeroStats]
    · by_cases hh : html = ""
      · simp [hh, succHashes, zeroStats]
      · simp only [hh, if_false]
        constructor
        · intro x
          exact runLinks_mem env m _ _ x
        · have hupl := runLinks_uploaded env m
            (linkPairs (extract_certificate_data env.parse env.urljoin html))
            ⟨{ zeroStats with certificates_found :=
                (extract_certificate_data env.parse env.urljoin html).length }, p0, 0⟩
          simpa [zeroStats] using hupl

/-- Claim C2, witness: in a concrete environment where the dedup check
passes, the download is truthy and the upload succeeds, the identity is
inserted, `pdfs_uploaded` moves and `errors` does not. -/
theorem c2_witness :
    (processOne envC3 s0Empty certX (mkPdf "u")).1.processed =
        setInsert s0Empty.processed (envC3.md5hex (mkPdf "u").url) ∧
    (processOne envC3 s0Empty certX (mkPdf "u")).1.stats.pdfs_uploaded =
        s0Empty.stats.pdfs_uploaded + 1 ∧
    (processOne envC3 s0Empty certX (mkPdf "u")).1.stats.errors = s0Empty.stats.errors :=
  (c2_identity_tracks_upload_success.1 envC3 s0Empty certX (mkPdf "u") pdfMagic
    (by decide) rfl (by decide)).1 rfl

/-- Claim C3, counterexample: with `envC3` (one record carrying two
links, everything succeeding) and a cap of 1, the cap fires at the
second link and the run ends with `pdfs_found = 1`: the cap check runs
before the `pdfs_found` increment, so the counter does not include the
link at which the cap fired.  The claim's increment-then-check order
would give `pdfs_found = 2` here. -/
theorem c3_counterexample :
    (process_certificates envC3 (some 1) []).1.stats.pdfs_found = 1 ∧
    ¬ (process_certificates envC3 (some 1) []).1.stats.pdfs_found = 2 := by
  decide

/-- Claim C3 as amended: for every `(record, link)` pair the
orchestrator checks the `maxDocuments` cap first and only increments
`documentsFound` when the cap has not fired; when the cap is set and
already reached, iteration terminates at once as a normal successful
termination, returning the statistics accumulated so far unchanged —
so `documentsFound` does not include the link at which the cap
fired. -/
theorem c3_cap_checked_before_count :
    ∀ (env : Env) (m : Option Nat) (s : RunState) (cert : CertData) (pdf : PdfInfo)
      (rest : List (CertData × PdfInfo)),
      capGuard m s.pdf_count = true →
      runLinks env m s ((cert, pdf) :: rest) = (s, []) :=
  fun _ _ _ _ _ _ h => runLinks_cons_cap h

/-- Claim C3, witness: at a concrete mid-run state whose `pdf_count`
has reached the cap of 1, the loop returns that state unchanged. -/
theorem c3_witness :
    capGuard (some 1) sMid.pdf_count = true ∧
    runLinks envC3 (some 1) sMid [(certX, mkPdf "u")] = (sMid, []) :=
  ⟨by decide, c3_cap_checked_before_count envC3 (some 1) sMid certX (mkPdf "u") [] (by decide)⟩

/-- Claim C4: when the content retriever fails, the run returns the
all-zero statistics with the identity set exactly as loaded, and saving
that set persists exactly the loaded set's serialization. -/
theorem c4_retriever_failure_zero_stats :
    ∀ (env : Env) (m : Option Nat) (p0 : List String),
      env.get_page_content = none →
      process_certificates env m p0 = (⟨zeroStats, p0, 0⟩, []) ∧
      ∀ (fn : String) (fs : String → Option String),
        applyOps fs (save_progress_ops (process_certificates env m p0).1.processed fn) fn =
          some (jsonDumpList p0) := by
  intro env m p0 h
  have heq : process_certificates env m p0 = (⟨zeroStats, p0, 0⟩, []) := by
    unfold process_certificates
    simp [h]
  refine ⟨heq, ?_⟩
  intro fn fs
  rw [heq]
  exact save_writes p0 fn fs

/-- Claim C4, witness: the failing-retriever environment with a
one-element loaded set returns zero statistics and saves that set. -/
theorem c4_witness :
    process_certificates envAbort none ["h1"] = (⟨zeroStats, ["h1"], 0⟩, []) ∧
    applyOps fsEmpty
        (save_progress_ops (process_certificates envAbort none ["h1"]).1.processed progressFile)
        progressFile = some (jsonDumpList ["h1"]) :=
  ⟨(c4_retriever_failure_zero_stats envAbort none ["h1"] rfl).1,
   (c4_retriever_failure_zero_stats envAbort none ["h1"] rfl).2 progressFile fsEmpty⟩

/-- Claim C5: classification is case-insensitive substring matching
with the audit/summary test before the certificate test — a text
classifies as `audit_report` iff its lowering contains `audit` or
`summary`, as `certificate` iff it fails that test and contains
`certificate`, and as `unknown` otherwise; in particular
`"Audit Certificate Summary"` classifies as `audit_report`, not
`certificate`. -/
theorem c5_classification_rule :
    classify_pdf_type "Audit Certificate Summary" = PdfType.audit_report ∧
    ∀ t : String,
      (classify_pdf_type t = PdfType.audit_report ↔
        (strContains (pyLower t) "audit" || strContains (pyLower t) "summary") = true) ∧
      (classify_pdf_type t = PdfType.certificate ↔
        (strContains (pyLower t) "audit" || strContains (pyLower t) "summary") = false ∧
          strContains (pyLower t) "certificate" = true) ∧
      (classify_pdf_type t = PdfType.unknown ↔
        (strContains (pyLower t) "audit" || strContains (pyLower t) "summary") = false ∧
          strContains (pyLower t) "certificate" = false) := by
  constructor
  · decide
  · intro t
    unfold classify_pdf_type
    cases h1 : (strContains (pyLower t) "audit" || strContains (pyLower t) "summary") <;>
      cases h2 : strContains (pyLower t) "certificate" <;> simp [h1, h2]

/-- Claim C6: every record the extractor produces has a non-empty link
list and arises, via the row extractor, from a row of the first table
other than the header row that has at least 5 cells. -/
theorem c6_record_provenance :
    ∀ (parse : String → HtmlDoc) (uj : String → String → String) (html : String)
      (cert : CertData),
      cert ∈ extract_certificate_data parse uj html →
      cert.pdf_links ≠ [] ∧
        ∃ t, (parse html).tables.head? = some t ∧
          ∃ row ∈ t.rows.drop 1, 5 ≤ row.cells.length ∧ extractRow uj row = some cert := by
  intro parse uj html cert h
  unfold extract_certificate_data at h
  rcases ht : (parse html).tables.head? with _ | t
  · rw [ht] at h
    simp at h
  · rw [ht] at h
    rcases List.mem_filterMap.mp h with ⟨row, hrow, hex⟩
    have hlen : ¬ row.cells.length < 5 := by
      intro hlt
      unfold extractRow at hex
      simp [hlt] at hex
    have hlinks : cert.pdf_links ≠ [] := by
      unfold extractRow at hex
      simp [hlen] at hex
      rcases hex with ⟨hne, hcert⟩
      subst hcert
      simpa using hne
    exact ⟨hlinks, t, rfl, row, hrow, by omega, hex⟩

/-- Claim C6, witness: the concrete record extracted from `docC3` has
non-empty links and comes from the 5-cell data row of its table. -/
theorem c6_witness :
    certC3.pdf_links ≠ [] ∧
      ∃ t, docC3.tables.head? = some t ∧
        ∃ row ∈ t.rows.drop 1, 5 ≤ row.cells.length ∧ extractRow ujConcat row = some certC3 :=
  c6_record_provenance (fun _ => docC3) ujConcat "page" certC3 (by decide)

/-- Claim C7: the extractor is a total function of the parsed input —
it returns a list for every string, never raising — and whenever the
parse contains no table element it returns the empty record list. -/
theorem c7_no_table_returns_empty :
    ∀ (parse : String → HtmlDoc) (uj : String → String → String) (html : String),
      (parse html).tables = [] →
      extract_certificate_data parse uj html = [] := by
  intro parse uj html h
  unfold extract_certificate_data
  simp [h]

/-- Claim C7, witness: on a parse with no tables the extractor returns
the empty list. -/
theorem c7_witness :
    extract_certificate_data emptyParse ujConcat "<p>no table</p>" = [] :=
  c7_no_table_returns_empty emptyParse ujConcat "<p>no table</p>" rfl

/-- Claim C8: a response body that does not begin with `%PDF` makes
`download_pdf` return `None`; when the orchestrator's download oracle
is `download_pdf` over any HTTP oracle, every content that reaches the
uploader begins with `%PDF`; and a failed download increments `errors`
without calling the uploader. -/
theorem c8_pdf_magic_guard :
    (∀ body : List Nat, bytesStart pdfMagic body = false →
      download_pdf (Except.ok body) = none) ∧
    (∀ (env : Env) (http : String → Except Unit (List Nat)),
      env.download = (fun url => download_pdf (http url)) →
      ∀ (m : Option Nat) (s : RunState) (pairs : List (CertData × PdfInfo)),
        ∀ e ∈ (runLinks env m s pairs).2, bytesStart pdfMagic e.content = true) ∧
    (∀ (env : Env) (s : RunState) (cert : CertData) (pdf : PdfInfo),
      env.md5hex pdf.url ∉ s.processed → env.download pdf.url = none →
      (processOne env s cert pdf).1.stats.errors = s.stats.errors + 1 ∧
      (processOne env s cert pdf).2 = none) := by
  refine ⟨?_, ?_, ?_⟩
  · intro body h
    simp [download_pdf, h]
  · intro env http henv m s pairs e he
    have hdl := runLinks_trace env m pairs s e he
    rw [henv] at hdl
    exact download_pdf_magic hdl
  · intro env s cert pdf hskip hdl
    simp [processOne_dlfail hskip hdl]

/-- Claim C8, witness: the byte `0` is rejected by `download_pdf`; the
one event of a concrete run through `download_pdf` carries
magic-prefixed content; a failing download increments `errors`. -/
theorem c8_witness :
    download_pdf (Except.ok [0]) = none ∧
    bytesStart pdfMagic (UploadEvent.mk "u" "u" [37, 80, 68, 70, 49] true).content = true ∧
    (processOne envAbort s0Empty certX (mkPdf "u")).1.stats.errors =
        s0Empty.stats.errors + 1 :=
  ⟨c8_pdf_magic_guard.1 [0] (by decide),
   c8_pdf_magic_guard.2.1 envC8 httpC8 rfl none s0Empty [(certX, mkPdf "u")]
     ⟨"u", "u", [37, 80, 68, 70, 49], true⟩ (by decide),
   (c8_pdf_magic_guard.2.2 envAbort s0Empty certX (mkPdf "u") (by decide) rfl).1⟩

/-- Claim C9: the cap guard treats a zero `max_pdfs` as falsy, exactly
like an absent one, so a run with cap 0 is identical to an uncapped
run — all discovered links are processed rather than none. -/
theorem c9_zero_cap_is_no_cap :
    (∀ n : Nat, capGuard (some 0) n = false) ∧
    ∀ (env : Env) (p0 : List String),
      process_certificates env (some 0) p0 = process_certificates env none p0 := by
  refine ⟨fun n => rfl, ?_⟩
  intro env p0
  unfold process_certificates
  rcases h : env.get_page_content with _ | html
  · rfl
  · by_cases hh : html = "" <;> simp [hh, runLinks_some_zero]

/-- Claim C10: `pdf_count`, the counter compared against the cap,
stays put for a dedup-skipped link and for a failed download, and
moves by one exactly when the dedup check passes and the download is
truthy, whatever the upload outcome; consequently a concrete capped
run examines more links (`pdfs_found = 3`) than its cap of 1 while
`pdf_count` ends at 1. -/
theorem c10_cap_counter_semantics :
    (∀ (env : Env) (s : RunState) (cert : CertData) (pdf : PdfInfo),
      env.md5hex pdf.url ∈ s.processed →
      (processOne env s cert pdf).1.pdf_count = s.pdf_count) ∧
    (∀ (env : Env) (s : RunState) (cert : CertData) (pdf : PdfInfo),
      env.download pdf.url = none →
      (processOne env s cert pdf).1.pdf_count = s.pdf_count) ∧
    (∀ (env : Env) (s : RunState) (cert : CertData) (pdf : PdfInfo) (c : List Nat),
      env.md5hex pdf.url ∉ s.processed → env.download pdf.url = some c → c ≠ [] →
      (processOne env s cert pdf).1.pdf_count = s.pdf_count + 1) ∧
    (runLinks envC10 (some 1) s0C10 pairsC10).1.stats.pdfs_found = 3 ∧
    (runLinks envC10 (some 1) s0C10 pairsC10).1.pdf_count = 1 := by
  refine ⟨?_, ?_, ?_, by decide, by decide⟩
  · intro env s cert pdf h
    simp [processOne_skip h]
  · intro env s cert pdf hdl
    by_cases hskip : env.md5hex pdf.url ∈ s.processed
    · simp [processOne_skip hskip]
    · simp [processOne_dlfail hskip hdl]
  · intro env s cert pdf c hskip hdl hc
    cases hup : env.upload cert pdf c
    · simp [processOne_upfail hskip hdl hc hup]
    · simp [processOne_success hskip hdl hc hup]

/-- Claim C10, witness: in the concrete environment, the dedup-skipped
link `u1` and the failing download `u2` leave `pdf_count` at 0, while
the successful `u3` moves it to 1. -/
theorem c10_witness :
    (processOne envC10 s0C10 certX (mkPdf "u1")).1.pdf_count = s0C10.pdf_count ∧
    (processOne envC10 s0C10 certX (mkPdf "u2")).1.pdf_count = s0C10.pdf_count ∧
    (processOne envC10 s0C10 certX (mkPdf "u3")).1.pdf_count = s0C10.pdf_count + 1 :=
  ⟨c10_cap_counter_semantics.1 envC10 s0C10 certX (mkPdf "u1") (by decide),
   c10_cap_counter_semantics.2.1 envC10 s0C10 certX (mkPdf "u2") (by decide),
   c10_cap_counter_semantics.2.2.1 envC10 s0C10 certX (mkPdf "u3") pdfMagic
     (by decide) (by decide) (by decide)⟩

end ISCCScraper
